import Mathlib

/-!
Verification development for the orchestration core of `src/app.py`
(build / revise workflows for an auto-generated static web application).

The Python source is shallowly embedded below.  External collaborators
(the Gemini generation call, the GitHub REST API, the evaluator endpoint,
wall-clock sleeps) are modelled as oracles: functions supplied as
parameters that say what each external call returns.  Time is modelled
by recording every `time.sleep(d)` as an explicit event; loops bounded
by a wall-clock budget are translated to recursion on the exact number
of iterations the source's counters allow.
-/

/-! ## Python string primitives

`src/app.py` manipulates strings with `str.split`, `str.strip` and
`str.replace`.  These are modelled character by character so that every
definition evaluates by kernel reduction. -/

-- Python `str.strip` whitespace set: space, \t, \n, \r, \v, \f.
def pyIsSpace (c : Char) : Bool :=
  c == ' ' || c == '\t' || c == '\n' || c == '\r' || c == '\x0b' || c == '\x0c'

-- Python `s.strip()`.
def pyStrip (s : String) : String :=
  String.mk (((s.toList.dropWhile pyIsSpace).reverse.dropWhile pyIsSpace).reverse)

-- Worker for `pySplit`: scans the character list, splitting at every
-- non-overlapping occurrence of `sep` (leftmost first), like Python
-- `s.split(sep)` with a non-empty separator.  `fuel` bounds the scan;
-- callers pass the length of the scanned list, which suffices because
-- every step consumes at least one character.
def pySplitAux (sep : List Char) : Nat → List Char → List Char → List (List Char)
  | _, [], acc => [acc.reverse]
  | 0, s, acc => [acc.reverse ++ s]
  | fuel + 1, c :: rest, acc =>
    if sep.isPrefixOf (c :: rest) then
      acc.reverse :: pySplitAux sep fuel ((c :: rest).drop sep.length) []
    else
      pySplitAux sep fuel rest (c :: acc)

-- Python `s.split(sep)` (non-empty separator).
def pySplit (s sep : String) : List String :=
  (pySplitAux sep.toList s.toList.length s.toList []).map String.mk

-- Worker for `pySplitOnce`: like `pySplitAux` but stops after the first
-- occurrence of the separator (Python `s.split(sep, 1)`).
def pySplitOnceAux (sep : List Char) : Nat → List Char → List Char → List (List Char)
  | _, [], acc => [acc.reverse]
  | 0, s, acc => [acc.reverse ++ s]
  | fuel + 1, c :: rest, acc =>
    if sep.isPrefixOf (c :: rest) then
      [acc.reverse, (c :: rest).drop sep.length]
    else
      pySplitOnceAux sep fuel rest (c :: acc)

-- Python `s.split(sep, 1)`.
def pySplitOnce (s sep : String) : List String :=
  (pySplitOnceAux sep.toList s.toList.length s.toList []).map String.mk

-- Worker for `pyRemoveAll`: deletes every non-overlapping occurrence of
-- `old` (Python `s.replace(old, "")`, the only form the source uses).
def pyRemoveAllAux (old : List Char) : Nat → List Char → List Char
  | _, [] => []
  | 0, s => s
  | fuel + 1, c :: rest =>
    if old.isPrefixOf (c :: rest) then
      pyRemoveAllAux old fuel ((c :: rest).drop old.length)
    else
      c :: pyRemoveAllAux old fuel rest

-- Python `s.replace(old, "")`.
def pyRemoveAll (s old : String) : String :=
  String.mk (pyRemoveAllAux old.toList s.toList.length s.toList)

/-! ## NotificationDispatcher — `notify_evaluator` (src/app.py lines 312-329)

The evaluator endpoint is an oracle `target : Nat → PostResult` giving the
outcome of the i-th `requests.post` (0-based).  The function returns the
boolean result together with the ordered trace of attempts and sleeps. -/

-- Outcome of one `requests.post` to the evaluation URL.
inductive PostResult where
  | status (code : Nat)   -- an HTTP response with this status code
  | exn                   -- a transport-level RequestException
deriving DecidableEq, Repr

inductive NotifyEvent where
  | attempt (i : Nat)     -- the i-th POST attempt (0-based)
  | sleep (d : Nat)       -- time.sleep(d)
deriving DecidableEq, Repr

-- One attempt succeeds exactly when `response.status_code == 200`;
-- a RequestException falls to the except branch, i.e. a failed attempt.
def attemptOk : PostResult → Bool
  | PostResult.status code => code == 200
  | PostResult.exn => false

def max_retries : Nat := 5

-- The `for i in range(max_retries)` body: on success return True at once;
-- otherwise `time.sleep(delay); delay *= 2` and continue.  `fuel` counts
-- the loop iterations that remain.
def notifyLoop (target : Nat → PostResult) : Nat → Nat → Nat → Bool × List NotifyEvent
  | _, _, 0 => (false, [])
  | i, delay, fuel + 1 =>
    if attemptOk (target i) then
      (true, [NotifyEvent.attempt i])
    else
      let r := notifyLoop target (i + 1) (delay * 2) fuel
      (r.1, NotifyEvent.attempt i :: NotifyEvent.sleep delay :: r.2)

-- `notify_evaluator`: `max_retries, delay = 5, 1` then the retry loop;
-- falling out of the loop returns False.
def notify_evaluator (target : Nat → PostResult) : Bool × List NotifyEvent :=
  notifyLoop target 0 1 max_retries

def attemptCount : List NotifyEvent → Nat
  | [] => 0
  | NotifyEvent.attempt _ :: rest => attemptCount rest + 1
  | _ :: rest => attemptCount rest

/-! ## DeploymentWatcher — `wait_for_github_pages_deployment` (lines 116-148)

The GitHub workflow-runs endpoint is an oracle `polls : Nat → PollOutcome`
giving what the k-th `repo.get_workflow_runs()` query (0-based) observes. -/

-- What one poll of the latest workflow run observes.
inductive PollOutcome where
  | noRun                                            -- totalCount == 0
  | run (status : String) (conclusion : Option String) -- the latest run
  | exn                                              -- query raised
deriving DecidableEq, Repr

inductive WatchEvent where
  | poll (k : Nat)     -- the k-th get_workflow_runs query (0-based)
  | sleep (d : Nat)    -- time.sleep(d)
deriving DecidableEq, Repr

def timeout_seconds : Nat := 300
def poll_interval_seconds : Nat := 10

-- `elapsed_time` starts at 0 and gains `poll_interval_seconds` per
-- iteration, so `while elapsed_time < timeout_seconds` runs exactly
-- timeout_seconds / poll_interval_seconds = 30 iterations.
def maxPolls : Nat := timeout_seconds / poll_interval_seconds

-- The poll loop.  A completed run decides the result immediately; an
-- exception while polling returns False immediately (conservative
-- policy); otherwise sleep the poll interval and continue.
def watchLoop (polls : Nat → PollOutcome) : Nat → Nat → Bool × List WatchEvent
  | _, 0 => (false, [])
  | k, fuel + 1 =>
    match polls k with
    | PollOutcome.exn => (false, [WatchEvent.poll k])
    | PollOutcome.noRun =>
      let r := watchLoop polls (k + 1) fuel
      (r.1, WatchEvent.poll k :: WatchEvent.sleep poll_interval_seconds :: r.2)
    | PollOutcome.run status conclusion =>
      if status == "completed" then
        (conclusion == some "success", [WatchEvent.poll k])
      else
        let r := watchLoop polls (k + 1) fuel
        (r.1, WatchEvent.poll k :: WatchEvent.sleep poll_interval_seconds :: r.2)

-- `wait_for_github_pages_deployment`: `time.sleep(5)` warm-up, then the
-- bounded poll loop; exhausting the budget returns False (timeout).
def wait_for_github_pages_deployment (polls : Nat → PollOutcome) : Bool × List WatchEvent :=
  let r := watchLoop polls 0 maxPolls
  (r.1, WatchEvent.sleep 5 :: r.2)

def pollCount : List WatchEvent → Nat
  | [] => 0
  | WatchEvent.poll _ :: rest => pollCount rest + 1
  | _ :: rest => pollCount rest

def sleepSum : List WatchEvent → Nat
  | [] => 0
  | WatchEvent.sleep d :: rest => d + sleepSum rest
  | _ :: rest => sleepSum rest

-- The trace produced by `j` consecutive non-terminal poll iterations
-- starting at poll index `k`: each poll is followed by one
-- poll-interval sleep.
def nonTermTrace (k : Nat) : Nat → List WatchEvent
  | 0 => []
  | j + 1 => WatchEvent.poll k :: WatchEvent.sleep poll_interval_seconds :: nonTermTrace (k + 1) j

-- An observation of a run whose status is "completed".
def isCompletedOutcome : PollOutcome → Bool
  | PollOutcome.run status _ => status == "completed"
  | _ => false

-- An observation of a completed run with the success conclusion.
def isSuccessOutcome : PollOutcome → Bool
  | PollOutcome.run status conclusion => status == "completed" && conclusion == some "success"
  | _ => false

-- Offset (relative to `k`) of the first observation within the next
-- `fuel` polls whose run status is "completed"; `none` if there is none.
def firstCompletedRel (polls : Nat → PollOutcome) : Nat → Nat → Option Nat
  | _, 0 => none
  | k, fuel + 1 =>
    if isCompletedOutcome (polls k) then some 0
    else (firstCompletedRel polls (k + 1) fuel).map (fun j => j + 1)

/-! ## Workflow events

Coarse observable actions of the two workflows and the HTTP handler. -/

inductive Ev where
  | generation (ok : Bool)        -- the Gemini call and its falsiness check
  | publishExn                    -- exception during GitHub repo operations
  | createRepo                    -- repo created and three files committed
  | enablePages (status : Nat)    -- the Pages-enable POST and its status
  | deployWait (ok : Bool)        -- outcome of wait_for_github_pages_deployment
  | lookupRepo (ok : Bool)        -- outcome of get_existing_repo_details
  | updateFile (name : String)    -- one successful repo.update_file
  | updateExn                     -- exception during get_contents/update_file
  | warnUnknown (name : String)   -- "Skipping unexpected file" warning
  | warnMalformed                 -- "Skipping malformed file block" warning
  | noValidFiles                  -- "Error: No valid files were updated."
  | notify (ok : Bool)            -- notify_evaluator invocation and result
  | respond (code : Nat)          -- HTTP response returned to the caller
deriving DecidableEq, Repr

def isNotifyEv : Ev → Bool
  | Ev.notify _ => true
  | _ => false

def hasNotify (evs : List Ev) : Bool := evs.any isNotifyEv

def isRespondEv : Ev → Bool
  | Ev.respond _ => true
  | _ => false

def hasRespond (evs : List Ev) : Bool := evs.any isRespondEv

/-! ## Repository state and `update_repo_files` (lines 241-289) -/

structure RepoFile where
  content : String
  sha : String
deriving DecidableEq, Repr

-- The two tracked files of the repository, as path ↦ (content, sha).
abbrev RepoState := List (String × RepoFile)

-- `repo.get_contents(path)`; `none` models the raising path (file absent).
def getContents (repo : RepoState) (path : String) : Option RepoFile :=
  (repo.find? (fun kv => kv.1 == path)).map (fun kv => kv.2)

def setFile (repo : RepoState) (path : String) (f : RepoFile) : RepoState :=
  repo.map (fun kv => if kv.1 == path then (kv.1, f) else kv)

-- Outcome of one `repo.update_file` call, decided by the host oracle.
inductive UpdRes where
  | ok (newSha : String)   -- update committed; sha of the new commit
  | raise                  -- the call raised (e.g. sha conflict)
deriving DecidableEq, Repr

-- Loop state of the `for file_raw in files_raw` loop:
-- the repository, `new_commit_sha` (initially ""), the number of
-- update_file calls made so far, and the events emitted so far.
structure UpdSt where
  repo : RepoState
  sha : String
  calls : Nat
  evs : List Ev
deriving Repr

-- The per-segment loop of update_repo_files.  Returns the final state
-- and whether an exception escaped to the outer `except` handler.
def updateLoop (host : Nat → UpdRes) : List String → UpdSt → UpdSt × Bool
  | [], st => (st, false)
  | seg :: rest, st =>
    if pyStrip seg == "" then updateLoop host rest st
    else
      match pySplitOnce seg "\n" with
      | p0 :: p1 :: _ =>
        let filename := pyStrip ((pySplit p0 "---").headD "")
        let content := pyRemoveAll (pyRemoveAll (pyStrip p1) "```html") "```"
        if filename = "index.html" ∨ filename = "README.md" then
          match getContents st.repo filename with
          | none => ({ st with evs := st.evs ++ [Ev.updateExn] }, true)
          | some _orig =>
            match host st.calls with
            | UpdRes.raise => ({ st with evs := st.evs ++ [Ev.updateExn] }, true)
            | UpdRes.ok newSha =>
              updateLoop host rest
                { repo := setFile st.repo filename { content := content, sha := newSha },
                  sha := newSha,
                  calls := st.calls + 1,
                  evs := st.evs ++ [Ev.updateFile filename] }
        else
          updateLoop host rest { st with evs := st.evs ++ [Ev.warnUnknown filename] }
      | _ =>
        updateLoop host rest { st with evs := st.evs ++ [Ev.warnMalformed] }

-- `update_repo_files`: split the LLM response on the file marker, run the
-- update loop, fail on zero updated files, then wait for redeployment.
-- Returns (commit sha or None, final repository state, events).
def update_repo_files (repo : RepoState) (llm_response : String)
    (host : Nat → UpdRes) (polls : Nat → PollOutcome) :
    Option String × RepoState × List Ev :=
  let files_raw := pySplit llm_response "--- FILE: "
  let (st, raised) := updateLoop host files_raw { repo := repo, sha := "", calls := 0, evs := [] }
  if raised then (none, st.repo, st.evs)
  else if st.sha == "" then (none, st.repo, st.evs ++ [Ev.noValidFiles])
  else
    let w := wait_for_github_pages_deployment polls
    if w.1 then (some st.sha, st.repo, st.evs ++ [Ev.deployWait true])
    else (none, st.repo, st.evs ++ [Ev.deployWait false])

/-! ## BuildWorkflow — `generate_app_code`, `create_and_deploy_repo`,
`process_build_request` (lines 19-50, 53-114, 150-170) -/

-- `generate_app_code`: the Gemini response text, stripped and with the
-- code-fence markers removed.
def generate_app_code (genText : String) : String :=
  pyRemoveAll (pyRemoveAll (pyStrip genText) "```html") "```"

structure GhDetails where
  repo_url : String
  pages_url : Option String
  commit_sha : String
deriving Repr

-- Oracles for one build run: Gemini text, whether the GitHub calls up to
-- the Pages request raise, the Pages-enable POST status and returned
-- html_url, the deployment polls, whether get_branch raises, branch head
-- sha, repo html_url, and the evaluator endpoint behaviour.
structure BuildEnv where
  genText : String
  ghExn : Bool
  pagesStatus : Nat
  pagesUrl : Option String
  polls : Nat → PollOutcome
  headExn : Bool
  headSha : String
  repoUrl : String
  notifyTarget : Nat → PostResult

-- `create_and_deploy_repo`: create repo + 3 files (any exception is
-- caught, returning None), enable Pages (status must be 201), wait for
-- deployment, then read the branch head commit.
def create_and_deploy_repo (env : BuildEnv) : Option GhDetails × List Ev :=
  if env.ghExn then (none, [Ev.publishExn])
  else if env.pagesStatus ≠ 201 then (none, [Ev.createRepo, Ev.enablePages env.pagesStatus])
  else
    let w := wait_for_github_pages_deployment env.polls
    if w.1 = false then
      (none, [Ev.createRepo, Ev.enablePages env.pagesStatus, Ev.deployWait false])
    else if env.headExn then
      (none, [Ev.createRepo, Ev.enablePages env.pagesStatus, Ev.deployWait true, Ev.publishExn])
    else
      (some { repo_url := env.repoUrl, pages_url := env.pagesUrl, commit_sha := env.headSha },
       [Ev.createRepo, Ev.enablePages env.pagesStatus, Ev.deployWait true])

-- `process_build_request`: generate, abort on falsy result; create and
-- deploy, abort on None; only then notify the evaluator.  (The payload
-- fields are opaque pass-throughs with no control flow and are omitted.)
def process_build_request (env : BuildEnv) : List Ev :=
  let code := generate_app_code env.genText
  if code = "" then [Ev.generation false]
  else
    let c := create_and_deploy_repo env
    match c.1 with
    | none => Ev.generation true :: c.2
    | some _ =>
      Ev.generation true :: c.2 ++ [Ev.notify (notify_evaluator env.notifyTarget).1]

/-! ## ReviseWorkflow — `get_existing_repo_details`, `process_revise_request`
(lines 175-194, 291-310) -/

structure RepoDetails where
  repoState : RepoState
  htmlUrl : String
  name : String
  login : String

-- Where, if anywhere, the `try` body of get_existing_repo_details raises.
inductive LookupOutcome where
  | earlyRaise            -- raised before `repo_name = ...` is executed
                          -- (Auth.Token / Github / get_user)
  | repoMissing           -- user.get_repo raised (repo_name already bound)
  | fileMissing           -- repo.get_contents raised (repo_name bound)
  | found (d : RepoDetails)

-- Running the `try` body: the first component is the binding state of the
-- local `repo_name` at the point the body finishes or raises, the second
-- is the successful result if any.
def lookupTryRun (task_id : String) (o : LookupOutcome) : Option String × Option RepoDetails :=
  match o with
  | LookupOutcome.earlyRaise => (none, none)
  | LookupOutcome.repoMissing => (some ("llm-app-" ++ task_id), none)
  | LookupOutcome.fileMissing => (some ("llm-app-" ++ task_id), none)
  | LookupOutcome.found d => (some ("llm-app-" ++ task_id), some d)

-- `get_existing_repo_details`: on an exception the handler formats
-- an f-string that reads the local `repo_name`; if the exception was
-- raised before that local was bound, evaluating it raises NameError,
-- which propagates out of the handler instead of returning None.
def get_existing_repo_details (task_id : String) (o : LookupOutcome) :
    Except Unit (Option RepoDetails) :=
  match lookupTryRun task_id o with
  | (_, some d) => Except.ok (some d)
  | (some _boundName, none) => Except.ok none
  | (none, none) => Except.error ()

-- Oracles for one revise run: the task id, the repo lookup outcome, the
-- Gemini response text, the update_file oracle, the deployment polls and
-- the evaluator endpoint behaviour.
structure ReviseEnv where
  taskId : String
  lookup : LookupOutcome
  llmText : String
  host : Nat → UpdRes
  polls : Nat → PollOutcome
  notifyTarget : Nat → PostResult

-- `process_revise_request`: lookup (a propagating exception escapes this
-- function too), generate, update files, and only then notify.
def process_revise_request (env : ReviseEnv) : Except Unit (List Ev) :=
  match get_existing_repo_details env.taskId env.lookup with
  | Except.error e => Except.error e
  | Except.ok none => Except.ok [Ev.lookupRepo false]
  | Except.ok (some d) =>
    if env.llmText = "" then Except.ok [Ev.lookupRepo true, Ev.generation false]
    else
      let u := update_repo_files d.repoState env.llmText env.host env.polls
      match u.1 with
      | none => Except.ok (Ev.lookupRepo true :: Ev.generation true :: u.2.2)
      | some _ =>
        Except.ok (Ev.lookupRepo true :: Ev.generation true :: u.2.2 ++
          [Ev.notify (notify_evaluator env.notifyTarget).1])

/-! ## HTTP handler — `handle_project_request` (lines 331-343) -/

-- A JSON value as far as the handler inspects one.
inductive JsonVal where
  | null
  | str (s : String)
  | num (n : Int)
deriving DecidableEq, Repr

-- `request.json` when it is a JSON object: an association list.
structure ReqData where
  fields : List (String × JsonVal)
deriving Repr

-- Python `data.get(k)`: the stored value, or None when absent.
def pyGet (d : ReqData) (k : String) : Option JsonVal :=
  (d.fields.find? (fun kv => kv.1 == k)).map (fun kv => kv.2)

-- Python `data.get('secret') == MY_APP_SECRET` where the right side is
-- `os.environ.get('APP_SECRET') : Optional[str]`.  JSON null is stored
-- as Python None, so it also compares equal to an absent configuration.
def secretEq (v : Option JsonVal) (s : Option String) : Bool :=
  match v, s with
  | none, none => true
  | some JsonVal.null, none => true
  | some (JsonVal.str a), some b => a == b
  | _, _ => false

-- The negation of `not data or data.get('secret') != MY_APP_SECRET`:
-- the body must be present, truthy (a non-empty object) and carry a
-- secret equal to the configured one.
def authAccepts (cfgSecret : Option String) (body : Option ReqData) : Bool :=
  match body with
  | none => false
  | some d => !d.fields.isEmpty && secretEq (pyGet d "secret") cfgSecret

-- `handle_project_request`: authenticate, dispatch on `round`, and only
-- after the selected workflow has run to completion return the 200
-- acknowledgment.  An exception propagating out of the revise workflow
-- escapes the handler as well (Flask would turn it into a 500).
def handle_project_request (cfgSecret : Option String) (body : Option ReqData)
    (benv : BuildEnv) (renv : ReviseEnv) : Except Unit (List Ev) :=
  if authAccepts cfgSecret body then
    match body with
    | none => Except.ok [Ev.respond 200]
    | some d =>
      if pyGet d "round" = some (JsonVal.num 2) then
        match process_revise_request renv with
        | Except.error e => Except.error e
        | Except.ok evs => Except.ok (evs ++ [Ev.respond 200])
      else if pyGet d "round" = some (JsonVal.num 1) then
        Except.ok (process_build_request benv ++ [Ev.respond 200])
      else Except.ok [Ev.respond 200]
  else Except.ok [Ev.respond 403]

/-! ## Concrete oracles used by witnesses and counterexamples -/

def failTarget : Nat → PostResult := fun _ => PostResult.status 503

def thirdTimeTarget : Nat → PostResult := fun i =>
  match i with
  | 0 => PostResult.status 503
  | 1 => PostResult.exn
  | _ => PostResult.status 200

def target200 : Nat → PostResult := fun _ => PostResult.status 200

def pollsAlwaysSuccess : Nat → PollOutcome := fun _ =>
  PollOutcome.run "completed" (some "success")

def pollsNeverRun : Nat → PollOutcome := fun _ => PollOutcome.noRun

def pollsLateSuccess : Nat → PollOutcome := fun i =>
  match i with
  | 0 => PollOutcome.noRun
  | _ => PollOutcome.run "completed" (some "success")

def repo0 : RepoState :=
  [("index.html", { content := "<p>old</p>", sha := "blob-1" }),
   ("README.md", { content := "# old", sha := "blob-2" })]

def okBuildEnv : BuildEnv :=
  { genText := "<html></html>",
    ghExn := false,
    pagesStatus := 201,
    pagesUrl := some "https://u.github.io/llm-app-t/",
    polls := pollsAlwaysSuccess,
    headExn := false,
    headSha := "head-1",
    repoUrl := "https://github.com/u/llm-app-t",
    notifyTarget := target200 }

def okLookup : LookupOutcome :=
  LookupOutcome.found
    { repoState := repo0,
      htmlUrl := "https://github.com/u/llm-app-t",
      name := "llm-app-t",
      login := "u" }

def hostAllOk : Nat → UpdRes := fun i => UpdRes.ok ("commit-" ++ toString i)

def okReviseEnv : ReviseEnv :=
  { taskId := "t",
    lookup := okLookup,
    llmText := "--- FILE: index.html ---\n<p>v2</p>\n\n--- FILE: README.md ---\n# v2",
    host := hostAllOk,
    polls := pollsAlwaysSuccess,
    notifyTarget := target200 }

def bodyRound1 : ReqData := { fields := [("round", JsonVal.num 1)] }

def emptyBody : ReqData := { fields := [] }

-- C6 inputs: a valid index.html section, an unrecognized filename
-- section, and a section with no line break.
def llmMixed : String :=
  "--- FILE: index.html ---\n<p>new</p>\n\n--- FILE: notes.txt ---\nstuff\n\n--- FILE: broken"

-- C6 input with zero recognized files.
def llmNoValid : String := "--- FILE: notes.txt ---\nstuff"

def noValidReviseEnv : ReviseEnv :=
  { okReviseEnv with llmText := llmNoValid }

-- C9 inputs: both files present, but the second update_file call raises.
def llmBoth : String :=
  "--- FILE: index.html ---\nNEW-INDEX\n\n--- FILE: README.md ---\nNEW-README"

def hostSecondRaises : Nat → UpdRes := fun i =>
  match i with
  | 0 => UpdRes.ok "commit-a"
  | _ => UpdRes.raise

def partialReviseEnv : ReviseEnv :=
  { okReviseEnv with llmText := llmBoth, host := hostSecondRaises }

/-! # Theorems -/

/-! ## NotificationDispatcher (C1, C7) -/

/-- C1 counterexample: for the target that answers 503 on every attempt,
`notify_evaluator` makes 5 attempts and performs backoff sleeps of
1, 2, 4, 8, 16 — but each sleep FOLLOWS its failed attempt, so the final
event of the run is the 16-unit sleep performed after the 5th (final)
attempt.  This refutes the claim's conjunct that no backoff delay follows
the final attempt (and with 5 attempts there are only 4 inter-attempt
gaps, so the delays 1, 2, 4, 8, 16 cannot all be inter-attempt). -/
theorem C1_counterexample :
    notify_evaluator failTarget =
      (false,
       [NotifyEvent.attempt 0, NotifyEvent.sleep 1, NotifyEvent.attempt 1, NotifyEvent.sleep 2,
        NotifyEvent.attempt 2, NotifyEvent.sleep 4, NotifyEvent.attempt 3, NotifyEvent.sleep 8,
        NotifyEvent.attempt 4, NotifyEvent.sleep 16]) ∧
    attemptCount (notify_evaluator failTarget).2 = 5 ∧
    (notify_evaluator failTarget).2.getLast? = some (NotifyEvent.sleep 16) :=
  ⟨rfl, rfl, rfl⟩

/-- C1 (amended): for a notification target that fails every attempt,
`notify_evaluator` makes exactly 5 attempts with backoff delays of
1, 2, 4, 8, 16 time-units, where each delay follows its failed attempt —
including a 16-unit delay after the final attempt — and returns failure. -/
theorem C1_five_attempts_all_fail (target : Nat → PostResult)
    (h : ∀ i, attemptOk (target i) = false) :
    notify_evaluator target =
      (false,
       [NotifyEvent.attempt 0, NotifyEvent.sleep 1, NotifyEvent.attempt 1, NotifyEvent.sleep 2,
        NotifyEvent.attempt 2, NotifyEvent.sleep 4, NotifyEvent.attempt 3, NotifyEvent.sleep 8,
        NotifyEvent.attempt 4, NotifyEvent.sleep 16]) ∧
    attemptCount (notify_evaluator target).2 = 5 := by
  have e : notify_evaluator target =
      (false,
       [NotifyEvent.attempt 0, NotifyEvent.sleep 1, NotifyEvent.attempt 1, NotifyEvent.sleep 2,
        NotifyEvent.attempt 2, NotifyEvent.sleep 4, NotifyEvent.attempt 3, NotifyEvent.sleep 8,
        NotifyEvent.attempt 4, NotifyEvent.sleep 16]) := by
    simp [notify_evaluator, max_retries, notifyLoop, h]
  refine ⟨e, ?_⟩
  rw [e]
  rfl

/-- C1 witness: the amended theorem applied to the always-503 target. -/
theorem C1_five_attempts_all_fail_witness :
    (∀ i, attemptOk (failTarget i) = false) ∧
    (notify_evaluator failTarget =
      (false,
       [NotifyEvent.attempt 0, NotifyEvent.sleep 1, NotifyEvent.attempt 1, NotifyEvent.sleep 2,
        NotifyEvent.attempt 2, NotifyEvent.sleep 4, NotifyEvent.attempt 3, NotifyEvent.sleep 8,
        NotifyEvent.attempt 4, NotifyEvent.sleep 16]) ∧
     attemptCount (notify_evaluator failTarget).2 = 5) :=
  ⟨fun _ => rfl, C1_five_attempts_all_fail failTarget (fun _ => rfl)⟩

/-- C7: an attempt succeeds exactly when the HTTP status is 200 (any other
status, and a transport exception, is a failed attempt), and retrying
stops at the first success: for any target whose first two attempts fail
and whose third succeeds, exactly 3 attempts occur and the dispatcher
returns success, with no sleep after the successful attempt. -/
theorem C7_stops_at_first_success (target : Nat → PostResult)
    (h0 : attemptOk (target 0) = false) (h1 : attemptOk (target 1) = false)
    (h2 : attemptOk (target 2) = true) :
    (∀ code, attemptOk (PostResult.status code) = true ↔ code = 200) ∧
    attemptOk PostResult.exn = false ∧
    notify_evaluator target =
      (true,
       [NotifyEvent.attempt 0, NotifyEvent.sleep 1, NotifyEvent.attempt 1, NotifyEvent.sleep 2,
        NotifyEvent.attempt 2]) ∧
    attemptCount (notify_evaluator target).2 = 3 := by
  have e : notify_evaluator target =
      (true,
       [NotifyEvent.attempt 0, NotifyEvent.sleep 1, NotifyEvent.attempt 1, NotifyEvent.sleep 2,
        NotifyEvent.attempt 2]) := by
    simp [notify_evaluator, max_retries, notifyLoop, h0, h1, h2]
  refine ⟨?_, rfl, e, ?_⟩
  · intro code
    simp [attemptOk]
  · rw [e]
    rfl

/-- C7 witness: a target failing with 503, then a transport exception,
then answering 200 on the third attempt. -/
theorem C7_stops_at_first_success_witness :
    (attemptOk (thirdTimeTarget 0) = false ∧ attemptOk (thirdTimeTarget 1) = false ∧
     attemptOk (thirdTimeTarget 2) = true) ∧
    ((∀ code, attemptOk (PostResult.status code) = true ↔ code = 200) ∧
     attemptOk PostResult.exn = false ∧
     notify_evaluator thirdTimeTarget =
       (true,
        [NotifyEvent.attempt 0, NotifyEvent.sleep 1, NotifyEvent.attempt 1, NotifyEvent.sleep 2,
         NotifyEvent.attempt 2]) ∧
     attemptCount (notify_evaluator thirdTimeTarget).2 = 3) :=
  ⟨⟨rfl, rfl, rfl⟩, C7_stops_at_first_success thirdTimeTarget rfl rfl rfl⟩

/-! ## DeploymentWatcher (C4, C5) -/

theorem wait_fst (polls : Nat → PollOutcome) :
    (wait_for_github_pages_deployment polls).1 = (watchLoop polls 0 maxPolls).1 := rfl

theorem wait_snd (polls : Nat → PollOutcome) :
    (wait_for_github_pages_deployment polls).2 =
      WatchEvent.sleep 5 :: (watchLoop polls 0 maxPolls).2 := rfl

theorem pollCount_append (a b : List WatchEvent) :
    pollCount (a ++ b) = pollCount a + pollCount b := by
  induction a with
  | nil => simp [pollCount]
  | cons e rest ih =>
    cases e with
    | poll k => simp [pollCount, ih]; omega
    | sleep d => simp [pollCount, ih]

theorem pollCount_nonTermTrace (j : Nat) : ∀ k, pollCount (nonTermTrace k j) = j := by
  induction j with
  | zero => intro k; rfl
  | succ n ih => intro k; simp [nonTermTrace, pollCount, ih]

theorem sleepSum_nonTermTrace (j : Nat) :
    ∀ k, sleepSum (nonTermTrace k j) = poll_interval_seconds * j := by
  induction j with
  | zero => intro k; simp [nonTermTrace, sleepSum]
  | succ n ih => intro k; simp [nonTermTrace, sleepSum, ih, Nat.mul_succ]; omega

theorem watchLoop_bounds (polls : Nat → PollOutcome) :
    ∀ fuel k, pollCount (watchLoop polls k fuel).2 ≤ fuel ∧
      sleepSum (watchLoop polls k fuel).2 ≤ poll_interval_seconds * fuel := by
  intro fuel
  induction fuel with
  | zero => intro k; simp [watchLoop, pollCount, sleepSum]
  | succ n ih =>
    intro k
    have h := ih (k + 1)
    rcases hp : polls k with _ | ⟨status, conclusion⟩ | _
    · simp only [watchLoop, hp]
      simp only [pollCount, sleepSum, Nat.mul_succ]
      omega
    · cases hs : status == "completed"
      · simp only [watchLoop, hp, hs, Bool.false_eq_true, if_false]
        simp only [pollCount, sleepSum, Nat.mul_succ]
        omega
      · simp only [watchLoop, hp, hs, if_true]
        simp only [pollCount, sleepSum, Nat.mul_succ]
        omega
    · simp only [watchLoop, hp]
      simp only [pollCount, sleepSum]
      omega

theorem firstCompletedRel_eq_none (polls : Nat → PollOutcome) :
    ∀ fuel k, (∀ i, i < fuel → isCompletedOutcome (polls (k + i)) = false) →
      firstCompletedRel polls k fuel = none := by
  intro fuel
  induction fuel with
  | zero => intro k _; rfl
  | succ n ih =>
    intro k h
    have hc : isCompletedOutcome (polls k) = false := by
      have := h 0 (by omega)
      simpa using this
    have hrec := ih (k + 1) (fun i hi => by
      have := h (i + 1) (by omega)
      have e : k + (i + 1) = k + 1 + i := by omega
      rw [e] at this
      exact this)
    simp [firstCompletedRel, hc, hrec]

theorem watchLoop_timeout (polls : Nat → PollOutcome) :
    ∀ fuel k, (∀ i, i < fuel → polls (k + i) ≠ PollOutcome.exn) →
      firstCompletedRel polls k fuel = none →
      watchLoop polls k fuel = (false, nonTermTrace k fuel) := by
  intro fuel
  induction fuel with
  | zero => intro k _ _; rfl
  | succ n ih =>
    intro k hx hn
    have hc : isCompletedOutcome (polls k) = false := by
      cases hc : isCompletedOutcome (polls k)
      · rfl
      · simp [firstCompletedRel, hc] at hn
    have hn' : firstCompletedRel polls (k + 1) n = none := by
      simp only [firstCompletedRel, hc, Bool.false_eq_true, if_false] at hn
      exact Option.map_eq_none'.mp hn
    have hrec := ih (k + 1) (fun i hi => by
      have := hx (i + 1) (by omega)
      have e : k + (i + 1) = k + 1 + i := by omega
      rw [e] at this
      exact this) hn'
    rcases hp : polls k with _ | ⟨status, conclusion⟩ | _
    · simp [watchLoop, hp, hrec, nonTermTrace]
    · have hs : (status == "completed") = false := by
        simpa [isCompletedOutcome, hp] using hc
      simp [watchLoop, hp, hs, hrec, nonTermTrace]
    · have := hx 0 (by omega)
      rw [Nat.add_zero] at this
      exact absurd hp this

theorem watchLoop_first_completed (polls : Nat → PollOutcome) :
    ∀ fuel k j, firstCompletedRel polls k fuel = some j →
      (∀ l, l ≤ j → polls (k + l) ≠ PollOutcome.exn) →
      watchLoop polls k fuel =
        (isSuccessOutcome (polls (k + j)),
         nonTermTrace k j ++ [WatchEvent.poll (k + j)]) := by
  intro fuel
  induction fuel with
  | zero => intro k j h _; simp [firstCompletedRel] at h
  | succ n ih =>
    intro k j h hx
    cases hc : isCompletedOutcome (polls k)
    · -- first completed strictly later
      simp only [firstCompletedRel, hc, Bool.false_eq_true, if_false] at h
      cases hm : firstCompletedRel polls (k + 1) n with
      | none => rw [hm] at h; simp at h
      | some j' =>
        rw [hm] at h
        simp only [Option.map_some', Option.some.injEq] at h
        subst h
        have hrec := ih (k + 1) j' hm (fun l hl => by
          have := hx (l + 1) (by omega)
          have e : k + (l + 1) = k + 1 + l := by omega
          rw [e] at this
          exact this)
        have e : k + (j' + 1) = k + 1 + j' := by omega
        rw [e]
        rcases hp : polls k with _ | ⟨status, conclusion⟩ | _
        · simp [watchLoop, hp, hrec, nonTermTrace]
        · have hs : (status == "completed") = false := by
            simpa [isCompletedOutcome, hp] using hc
          simp [watchLoop, hp, hs, hrec, nonTermTrace]
        · have := hx 0 (by omega)
          rw [Nat.add_zero] at this
          exact absurd hp this
    · -- polls k is the first completed observation
      have hj : j = 0 := by
        simp [firstCompletedRel, hc] at h
        omega
      subst hj
      rcases hp : polls k with _ | ⟨status, conclusion⟩ | _
      · rw [hp] at hc; simp [isCompletedOutcome] at hc
      · have hs : (status == "completed") = true := by
          simpa [isCompletedOutcome, hp] using hc
        simp [watchLoop, hp, hs, isSuccessOutcome, nonTermTrace]
      · rw [hp] at hc; simp [isCompletedOutcome] at hc

/-- C4: with no transport error while polling, the watcher returns success
if and only if the first observation whose run status is "completed" has
the success conclusion; at that first completed observation the result is
decided immediately — exactly j+1 polls occur, so a completed run with a
non-success conclusion returns failure without further polling — and
observations with no run (or a not-yet-completed run) before it did not
stop the polling; if no completed run is observed in the budget the
result is failure. -/
theorem C4_first_completed_run_decides (polls : Nat → PollOutcome)
    (hx : ∀ i, polls i ≠ PollOutcome.exn) :
    ((wait_for_github_pages_deployment polls).1 = true ↔
      (∃ j, firstCompletedRel polls 0 maxPolls = some j ∧ isSuccessOutcome (polls j) = true)) ∧
    (∀ j, firstCompletedRel polls 0 maxPolls = some j →
      (wait_for_github_pages_deployment polls).1 = isSuccessOutcome (polls j) ∧
      pollCount (wait_for_github_pages_deployment polls).2 = j + 1) ∧
    (firstCompletedRel polls 0 maxPolls = none →
      (wait_for_github_pages_deployment polls).1 = false) := by
  cases hf : firstCompletedRel polls 0 maxPolls with
  | none =>
    have ht := watchLoop_timeout polls maxPolls 0 (fun i _ => by simpa using hx i) hf
    refine ⟨?_, ?_, ?_⟩
    · rw [wait_fst, ht]
      simp
    · intro j hj
      simp at hj
    · intro _
      rw [wait_fst, ht]
  | some j =>
    have hw := watchLoop_first_completed polls maxPolls 0 j hf (fun l _ => by simpa using hx l)
    rw [Nat.zero_add] at hw
    refine ⟨?_, ?_, ?_⟩
    · rw [wait_fst, hw]
      constructor
      · intro hs
        exact ⟨j, rfl, hs⟩
      · rintro ⟨j', hj', hs⟩
        simp only [Option.some.injEq] at hj'
        subst hj'
        exact hs
    · intro j' hj'
      simp only [Option.some.injEq] at hj'
      subst hj'
      refine ⟨by rw [wait_fst, hw], ?_⟩
      rw [wait_snd, hw]
      simp [pollCount, pollCount_append, pollCount_nonTermTrace]
    · intro h
      simp at h

/-- C4 witness: a target repository whose first poll sees no run yet and
whose second poll sees a completed, successful run. -/
theorem C4_first_completed_run_decides_witness :
    (∀ i, pollsLateSuccess i ≠ PollOutcome.exn) ∧
    (((wait_for_github_pages_deployment pollsLateSuccess).1 = true ↔
      (∃ j, firstCompletedRel pollsLateSuccess 0 maxPolls = some j ∧
        isSuccessOutcome (pollsLateSuccess j) = true)) ∧
    (∀ j, firstCompletedRel pollsLateSuccess 0 maxPolls = some j →
      (wait_for_github_pages_deployment pollsLateSuccess).1 = isSuccessOutcome (pollsLateSuccess j) ∧
      pollCount (wait_for_github_pages_deployment pollsLateSuccess).2 = j + 1) ∧
    (firstCompletedRel pollsLateSuccess 0 maxPolls = none →
      (wait_for_github_pages_deployment pollsLateSuccess).1 = false)) :=
  ⟨fun i => by cases i <;> simp [pollsLateSuccess],
   C4_first_completed_run_decides pollsLateSuccess
     (fun i => by cases i <;> simp [pollsLateSuccess])⟩

/-- C5: the watcher sleeps a fixed 5-unit warm-up before its first poll;
the loop performs at most 30 polls (= 300-unit budget / 10-unit interval,
the budget counted from loop entry and excluding the warm-up), sleeping
at most 300 units inside the loop (305 in total); and when no poll in the
budget observes a completed run (and none errors) it runs the full 30
poll/sleep iterations and returns timeout failure. -/
theorem C5_warmup_interval_budget (polls : Nat → PollOutcome) :
    (wait_for_github_pages_deployment polls).2.head? = some (WatchEvent.sleep 5) ∧
    pollCount (wait_for_github_pages_deployment polls).2 ≤ maxPolls ∧
    sleepSum (watchLoop polls 0 maxPolls).2 ≤ timeout_seconds ∧
    sleepSum (wait_for_github_pages_deployment polls).2 ≤ 5 + timeout_seconds ∧
    ((∀ i, i < maxPolls → polls i ≠ PollOutcome.exn ∧ isCompletedOutcome (polls i) = false) →
      wait_for_github_pages_deployment polls =
        (false, WatchEvent.sleep 5 :: nonTermTrace 0 maxPolls)) := by
  have hb := watchLoop_bounds polls maxPolls 0
  have hbudget : poll_interval_seconds * maxPolls = timeout_seconds := by decide
  refine ⟨rfl, ?_, ?_, ?_, ?_⟩
  · rw [wait_snd]
    simpa [pollCount] using hb.1
  · rw [← hbudget]
    exact hb.2
  · rw [wait_snd]
    simp only [sleepSum]
    omega
  · intro h
    have hn : firstCompletedRel polls 0 maxPolls = none :=
      firstCompletedRel_eq_none polls maxPolls 0 (fun i hi => by simpa using (h i hi).2)
    have ht := watchLoop_timeout polls maxPolls 0
      (fun i hi => by simpa using (h i hi).1) hn
    simp [wait_for_github_pages_deployment, ht]

/-- C5 witness: a repository for which no workflow run ever appears —
the watcher runs all 30 polls and returns timeout failure. -/
theorem C5_warmup_interval_budget_witness :
    (∀ i, i < maxPolls → pollsNeverRun i ≠ PollOutcome.exn ∧
      isCompletedOutcome (pollsNeverRun i) = false) ∧
    wait_for_github_pages_deployment pollsNeverRun =
      (false, WatchEvent.sleep 5 :: nonTermTrace 0 maxPolls) :=
  ⟨fun _ _ => ⟨by simp [pollsNeverRun], rfl⟩,
   (C5_warmup_interval_budget pollsNeverRun).2.2.2.2
     (fun _ _ => ⟨by simp [pollsNeverRun], rfl⟩)⟩

/-! ## Workflow trace lemmas -/

theorem updateLoop_evs_extend (host : Nat → UpdRes) :
    ∀ segs st, ∃ tail, (updateLoop host segs st).1.evs = st.evs ++ tail ∧
      hasNotify tail = false ∧ hasRespond tail = false := by
  intro segs
  induction segs with
  | nil => intro st; exact ⟨[], by simp [updateLoop], rfl, rfl⟩
  | cons seg rest ih =>
    intro st
    simp only [updateLoop]
    split
    · exact ih st
    · split
      · -- a segment with a line break
        rename_i p0 p1 t heq
        split
        · -- known filename
          split
          · -- get_contents raised (file absent)
            exact ⟨[Ev.updateExn], by simp, rfl, rfl⟩
          · split
            · -- update_file raised
              exact ⟨[Ev.updateExn], by simp, rfl, rfl⟩
            · -- update committed, continue with the rest
              rename_i newSha heq2
              obtain ⟨tail, he, hn, hr⟩ := ih
                { repo := setFile st.repo (pyStrip ((pySplit p0 "---").headD ""))
                    { content := pyRemoveAll (pyRemoveAll (pyStrip p1) "```html") "```",
                      sha := newSha },
                  sha := newSha,
                  calls := st.calls + 1,
                  evs := st.evs ++ [Ev.updateFile (pyStrip ((pySplit p0 "---").headD ""))] }
              refine ⟨Ev.updateFile (pyStrip ((pySplit p0 "---").headD "")) :: tail, ?_, ?_, ?_⟩
              · rw [he]
                simp
              · simpa [hasNotify, isNotifyEv] using hn
              · simpa [hasRespond, isRespondEv] using hr
        · -- unrecognized filename: warning, continue
          obtain ⟨tail, he, hn, hr⟩ := ih
            { st with evs := st.evs ++ [Ev.warnUnknown (pyStrip ((pySplit p0 "---").headD ""))] }
          refine ⟨Ev.warnUnknown (pyStrip ((pySplit p0 "---").headD "")) :: tail, ?_, ?_, ?_⟩
          · rw [he]
            simp
          · simpa [hasNotify, isNotifyEv] using hn
          · simpa [hasRespond, isRespondEv] using hr
      · -- a segment with no line break: warning, continue
        obtain ⟨tail, he, hn, hr⟩ := ih { st with evs := st.evs ++ [Ev.warnMalformed] }
        refine ⟨Ev.warnMalformed :: tail, ?_, ?_, ?_⟩
        · rw [he]
          simp
        · simpa [hasNotify, isNotifyEv] using hn
        · simpa [hasRespond, isRespondEv] using hr

theorem update_repo_files_evs_clean (repo : RepoState) (llm : String)
    (host : Nat → UpdRes) (polls : Nat → PollOutcome) :
    hasNotify (update_repo_files repo llm host polls).2.2 = false ∧
    hasRespond (update_repo_files repo llm host polls).2.2 = false := by
  obtain ⟨tail, he, hn, hr⟩ :=
    updateLoop_evs_extend host (pySplit llm "--- FILE: ")
      { repo := repo, sha := "", calls := 0, evs := [] }
  simp only [update_repo_files]
  rcases hu : updateLoop host (pySplit llm "--- FILE: ")
      { repo := repo, sha := "", calls := 0, evs := [] } with ⟨st, raised⟩
  rw [hu] at he
  simp only at he
  cases raised
  · simp only [Bool.false_eq_true, if_false]
    cases hsha : st.sha == ""
    · simp only [Bool.false_eq_true, if_false]
      cases hw : (wait_for_github_pages_deployment polls).1
      · simp only [Bool.false_eq_true, if_false]
        constructor
        · simpa [he, hasNotify, isNotifyEv] using hn
        · simpa [he, hasRespond, isRespondEv] using hr
      · simp only [if_true]
        constructor
        · simpa [he, hasNotify, isNotifyEv] using hn
        · simpa [he, hasRespond, isRespondEv] using hr
    · simp only [if_true]
      constructor
      · simpa [he, hasNotify, isNotifyEv] using hn
      · simpa [he, hasRespond, isRespondEv] using hr
  · simp only [if_true]
    constructor
    · simpa [he, hasNotify] using hn
    · simpa [he, hasRespond] using hr

theorem create_and_deploy_repo_evs_clean (benv : BuildEnv) :
    hasNotify (create_and_deploy_repo benv).2 = false ∧
    hasRespond (create_and_deploy_repo benv).2 = false := by
  simp only [create_and_deploy_repo]
  split_ifs <;> simp [hasNotify, hasRespond, isNotifyEv, isRespondEv]

theorem process_build_request_no_respond (benv : BuildEnv) :
    hasRespond (process_build_request benv) = false := by
  simp only [process_build_request]
  split
  · rfl
  · split
    · simpa [hasRespond, isRespondEv] using (create_and_deploy_repo_evs_clean benv).2
    · have h := (create_and_deploy_repo_evs_clean benv).2
      simp only [hasRespond] at h
      simp [hasRespond, isRespondEv, h]

theorem process_revise_ok_no_respond (renv : ReviseEnv)
    (hnr : renv.lookup ≠ LookupOutcome.earlyRaise) :
    ∃ evs, process_revise_request renv = Except.ok evs ∧ hasRespond evs = false := by
  cases hl : renv.lookup with
  | earlyRaise => exact absurd hl hnr
  | repoMissing =>
    exact ⟨[Ev.lookupRepo false],
      by simp [process_revise_request, hl, get_existing_repo_details, lookupTryRun], rfl⟩
  | fileMissing =>
    exact ⟨[Ev.lookupRepo false],
      by simp [process_revise_request, hl, get_existing_repo_details, lookupTryRun], rfl⟩
  | found d =>
    by_cases hllm : renv.llmText = ""
    · exact ⟨[Ev.lookupRepo true, Ev.generation false],
        by simp [process_revise_request, hl, get_existing_repo_details, lookupTryRun, hllm], rfl⟩
    · have hclean := (update_repo_files_evs_clean d.repoState renv.llmText renv.host renv.polls).2
      cases hu : (update_repo_files d.repoState renv.llmText renv.host renv.polls).1 with
      | none =>
        refine ⟨Ev.lookupRepo true :: Ev.generation true ::
            (update_repo_files d.repoState renv.llmText renv.host renv.polls).2.2, ?_, ?_⟩
        · simp [process_revise_request, hl, get_existing_repo_details, lookupTryRun, hllm, hu]
        · simpa [hasRespond, isRespondEv] using hclean
      | some sha =>
        refine ⟨Ev.lookupRepo true :: Ev.generation true ::
            (update_repo_files d.repoState renv.llmText renv.host renv.polls).2.2 ++
            [Ev.notify (notify_evaluator renv.notifyTarget).1], ?_, ?_⟩
        · simp [process_revise_request, hl, get_existing_repo_details, lookupTryRun, hllm, hu]
        · simp only [hasRespond] at hclean
          simp [hasRespond, isRespondEv, List.any_append, hclean]

/-- C3: in both workflows the notify step runs only when every earlier
stage succeeded — equivalently, if the trace of a run contains a notify
event then the generation result was non-empty and the publish/deploy
stage returned details (BuildWorkflow), resp. the repository lookup
succeeded, the generation result was non-empty and the file-update /
redeployment step returned a commit (ReviseWorkflow).  Failure at any
earlier stage therefore ends the run with no notification. -/
theorem C3_no_notify_after_failure (benv : BuildEnv) (renv : ReviseEnv) (evs : List Ev) :
    (hasNotify (process_build_request benv) = true →
      generate_app_code benv.genText ≠ "" ∧ (create_and_deploy_repo benv).1 ≠ none) ∧
    (process_revise_request renv = Except.ok evs → hasNotify evs = true →
      ∃ d, renv.lookup = LookupOutcome.found d ∧ renv.llmText ≠ "" ∧
        (update_repo_files d.repoState renv.llmText renv.host renv.polls).1 ≠ none) := by
  constructor
  · intro hb
    simp only [process_build_request] at hb
    by_cases hg : generate_app_code benv.genText = ""
    · rw [if_pos hg] at hb
      simp [hasNotify, isNotifyEv] at hb
    · rw [if_neg hg] at hb
      refine ⟨hg, ?_⟩
      cases hc : (create_and_deploy_repo benv).1 with
      | none =>
        rw [hc] at hb
        have hclean := (create_and_deploy_repo_evs_clean benv).1
        simp only [hasNotify] at hclean
        simp [hasNotify, isNotifyEv, hclean] at hb
      | some d => simp [hc]
  · intro h hn
    cases hl : renv.lookup with
    | earlyRaise =>
      simp [process_revise_request, hl, get_existing_repo_details, lookupTryRun] at h
    | repoMissing =>
      simp [process_revise_request, hl, get_existing_repo_details, lookupTryRun] at h
      rw [← h] at hn
      simp [hasNotify, isNotifyEv] at hn
    | fileMissing =>
      simp [process_revise_request, hl, get_existing_repo_details, lookupTryRun] at h
      rw [← h] at hn
      simp [hasNotify, isNotifyEv] at hn
    | found d =>
      by_cases hllm : renv.llmText = ""
      · simp [process_revise_request, hl, get_existing_repo_details, lookupTryRun, hllm] at h
        rw [← h] at hn
        simp [hasNotify, isNotifyEv] at hn
      · cases hu : (update_repo_files d.repoState renv.llmText renv.host renv.polls).1 with
        | none =>
          simp [process_revise_request, hl, get_existing_repo_details, lookupTryRun,
            hllm, hu] at h
          have hclean := (update_repo_files_evs_clean d.repoState renv.llmText
            renv.host renv.polls).1
          simp only [hasNotify] at hclean
          rw [← h] at hn
          simp [hasNotify, isNotifyEv, hclean] at hn
        | some sha => exact ⟨d, rfl, hllm, by simp [hu]⟩

/-- C3 witness: in fully successful build and revise runs the notify step
does occur, and the theorem recovers that every earlier stage succeeded. -/
theorem C3_no_notify_after_failure_witness :
    (hasNotify (process_build_request okBuildEnv) = true ∧
     process_revise_request okReviseEnv =
       Except.ok [Ev.lookupRepo true, Ev.generation true, Ev.updateFile "index.html",
         Ev.updateFile "README.md", Ev.deployWait true, Ev.notify true] ∧
     hasNotify [Ev.lookupRepo true, Ev.generation true, Ev.updateFile "index.html",
       Ev.updateFile "README.md", Ev.deployWait true, Ev.notify true] = true) ∧
    (generate_app_code okBuildEnv.genText ≠ "" ∧ (create_and_deploy_repo okBuildEnv).1 ≠ none) ∧
    (∃ d, okReviseEnv.lookup = LookupOutcome.found d ∧ okReviseEnv.llmText ≠ "" ∧
      (update_repo_files d.repoState okReviseEnv.llmText okReviseEnv.host
        okReviseEnv.polls).1 ≠ none) :=
  ⟨⟨rfl, rfl, rfl⟩,
   (C3_no_notify_after_failure okBuildEnv okReviseEnv
     [Ev.lookupRepo true, Ev.generation true, Ev.updateFile "index.html",
      Ev.updateFile "README.md", Ev.deployWait true, Ev.notify true]).1 rfl,
   (C3_no_notify_after_failure okBuildEnv okReviseEnv
     [Ev.lookupRepo true, Ev.generation true, Ev.updateFile "index.html",
      Ev.updateFile "README.md", Ev.deployWait true, Ev.notify true]).2 rfl rfl⟩

/-! ## HTTP handler (C2, C8) -/

/-- C2 counterexample: for a concrete authenticated round-1 request whose
build workflow runs to completion, the handler's trace shows the 200
acknowledgment as the LAST event — emitted only after the generation,
publish, deployment-wait and notify steps have all finished — refuting
the claim that the acknowledgment is returned immediately, before the
selected workflow completes.  (`handle_project_request` invokes the
workflow synchronously and only then returns.) -/
theorem C2_counterexample :
    handle_project_request none (some bodyRound1) okBuildEnv okReviseEnv =
      Except.ok [Ev.generation true, Ev.createRepo, Ev.enablePages 201, Ev.deployWait true,
        Ev.notify true, Ev.respond 200] ∧
    [Ev.generation true, Ev.createRepo, Ev.enablePages 201, Ev.deployWait true,
      Ev.notify true, Ev.respond 200].getLast? = some (Ev.respond 200) ∧
    [Ev.generation true, Ev.createRepo, Ev.enablePages 201, Ev.deployWait true,
      Ev.notify true, Ev.respond 200].head? = some (Ev.generation true) :=
  ⟨rfl, rfl, rfl⟩

/-- C2 (amended): for every inbound request that passes authentication
(and whose workflow does not propagate an exception), the handler returns
the same accepted (200) acknowledgment regardless of the workflow's
ultimate outcome — but only AFTER the selected workflow has run to
completion: the acknowledgment is the single respond event and it follows
every event of the workflow in the trace. -/
theorem C2_ack_after_workflow (cfg : Option String) (body : Option ReqData)
    (benv : BuildEnv) (renv : ReviseEnv)
    (hauth : authAccepts cfg body = true)
    (hnr : renv.lookup ≠ LookupOutcome.earlyRaise) :
    ∃ evs, handle_project_request cfg body benv renv = Except.ok (evs ++ [Ev.respond 200]) ∧
      hasRespond evs = false := by
  cases body with
  | none => simp [authAccepts] at hauth
  | some d =>
    simp only [handle_project_request, hauth, if_true]
    by_cases h2 : pyGet d "round" = some (JsonVal.num 2)
    · rw [if_pos h2]
      obtain ⟨evs, he, hr⟩ := process_revise_ok_no_respond renv hnr
      rw [he]
      exact ⟨evs, rfl, hr⟩
    · rw [if_neg h2]
      by_cases h1 : pyGet d "round" = some (JsonVal.num 1)
      · rw [if_pos h1]
        exact ⟨process_build_request benv, rfl, process_build_request_no_respond benv⟩
      · rw [if_neg h1]
        exact ⟨[], by simp, rfl⟩

/-- C2 witness: the amended theorem at the concrete authenticated round-1
request of the counterexample. -/
theorem C2_ack_after_workflow_witness :
    authAccepts none (some bodyRound1) = true ∧
    okReviseEnv.lookup ≠ LookupOutcome.earlyRaise ∧
    ∃ evs, handle_project_request none (some bodyRound1) okBuildEnv okReviseEnv =
        Except.ok (evs ++ [Ev.respond 200]) ∧ hasRespond evs = false :=
  ⟨rfl, fun h => by simp [okReviseEnv, okLookup] at h,
   C2_ack_after_workflow none (some bodyRound1) okBuildEnv okReviseEnv rfl
     (fun h => by simp [okReviseEnv, okLookup] at h)⟩

/-- C8 counterexample: with no configured secret and a request whose body
parses to the EMPTY JSON object, the request's (absent) secret field
compares equal to the (absent) configured secret, yet the handler rejects
the request with 403 — because the guard `not data` also rejects a falsy
(empty) body.  This refutes the claim's "exactly when the secret field
equals the configured value". -/
theorem C8_counterexample :
    secretEq (pyGet emptyBody "secret") none = true ∧
    handle_project_request none (some emptyBody) okBuildEnv okReviseEnv =
      Except.ok [Ev.respond 403] :=
  ⟨rfl, rfl⟩

/-- C8 (amended): the handler accepts a request exactly when the body is
present, is a non-empty JSON object, and its secret field compares equal
(by Python equality) to the configured secret; in particular, when no
secret is configured, a non-empty request that omits the secret field
compares equal, passes authentication, and the selected workflow runs
(for a round-1 request the build workflow's trace precedes the 200). -/
theorem C8_auth_exact_match (cfg : Option String) (body : Option ReqData)
    (benv : BuildEnv) (renv : ReviseEnv) :
    (authAccepts cfg body = true ↔
      ∃ d, body = some d ∧ d.fields ≠ [] ∧ secretEq (pyGet d "secret") cfg = true) ∧
    (authAccepts cfg body = false →
      handle_project_request cfg body benv renv = Except.ok [Ev.respond 403]) ∧
    (∀ fields, fields ≠ [] → pyGet { fields := fields } "secret" = none →
      authAccepts none (some { fields := fields }) = true) ∧
    (∀ d, body = some d → authAccepts cfg body = true →
      pyGet d "round" = some (JsonVal.num 1) →
      handle_project_request cfg body benv renv =
        Except.ok (process_build_request benv ++ [Ev.respond 200])) := by
  refine ⟨?_, ?_, ?_, ?_⟩
  · cases body with
    | none => simp [authAccepts]
    | some d =>
      simp only [authAccepts, Bool.and_eq_true, Bool.not_eq_eq_eq_not, Bool.not_true,
        Option.some.injEq]
      constructor
      · rintro ⟨h1, h2⟩
        exact ⟨d, rfl, by simpa [List.isEmpty_iff] using h1, h2⟩
      · rintro ⟨d', hd, h1, h2⟩
        subst hd
        exact ⟨by simpa [List.isEmpty_iff] using h1, h2⟩
  · intro h
    simp only [handle_project_request, h]
    rfl
  · intro fields hne hsec
    simp only [authAccepts, Bool.and_eq_true]
    constructor
    · simpa [List.isEmpty_iff] using hne
    · rw [hsec]
      rfl
  · intro d hb hacc hr
    subst hb
    simp only [handle_project_request, hacc, if_true]
    rw [if_neg (by simp [hr]), if_pos hr]

/-- C8 witness: no configured secret, a non-empty body that omits the
secret field and selects round 1 — authentication passes and the build
workflow's trace precedes the 200 acknowledgment. -/
theorem C8_auth_exact_match_witness :
    (authAccepts none (some bodyRound1) = true ∧
     handle_project_request none (some bodyRound1) okBuildEnv okReviseEnv =
       Except.ok (process_build_request okBuildEnv ++ [Ev.respond 200])) :=
  ⟨(C8_auth_exact_match none (some bodyRound1) okBuildEnv okReviseEnv).2.2.1
     [("round", JsonVal.num 1)] (by simp) rfl,
   (C8_auth_exact_match none (some bodyRound1) okBuildEnv okReviseEnv).2.2.2
     bodyRound1 rfl rfl rfl⟩

/-! ## ReviseWorkflow parsing and update step (C6, C9, C10) -/

/-- C6: in the multi-file response of the revise workflow, a segment whose
filename is not index.html or README.md is dropped with a warning, and a
segment with no line break is dropped with a warning — neither is fatal
when at least one recognized file is updated (the step still returns a
commit sha); but a response with zero recognized files yields the fatal
no-valid-files condition: the step returns None, the repository is left
unchanged, and the revise workflow ends without any notify event. -/
theorem C6_warnings_nonfatal_no_valid_files_fatal :
    update_repo_files repo0 llmMixed hostAllOk pollsAlwaysSuccess =
      (some "commit-0",
       [("index.html", { content := "<p>new</p>", sha := "commit-0" }),
        ("README.md", { content := "# old", sha := "blob-2" })],
       [Ev.updateFile "index.html", Ev.warnUnknown "notes.txt", Ev.warnMalformed,
        Ev.deployWait true]) ∧
    update_repo_files repo0 llmNoValid hostAllOk pollsAlwaysSuccess =
      (none, repo0, [Ev.warnUnknown "notes.txt", Ev.noValidFiles]) ∧
    process_revise_request noValidReviseEnv =
      Except.ok [Ev.lookupRepo true, Ev.generation true, Ev.warnUnknown "notes.txt",
        Ev.noValidFiles] ∧
    hasNotify [Ev.lookupRepo true, Ev.generation true, Ev.warnUnknown "notes.txt",
      Ev.noValidFiles] = false :=
  ⟨rfl, rfl, rfl, rfl⟩

/-- C9: the file-update step is not atomic.  With a response carrying both
recognized files, the first update (index.html) is committed; the second
update (README.md) raises; the step returns None — so the revise workflow
aborts and never notifies — yet the final repository state keeps the new
index.html content from the committed first update, while README.md
retains its old content. -/
theorem C9_partial_update_persists :
    update_repo_files repo0 llmBoth hostSecondRaises pollsAlwaysSuccess =
      (none,
       [("index.html", { content := "NEW-INDEX", sha := "commit-a" }),
        ("README.md", { content := "# old", sha := "blob-2" })],
       [Ev.updateFile "index.html", Ev.updateExn]) ∧
    getContents (update_repo_files repo0 llmBoth hostSecondRaises pollsAlwaysSuccess).2.1
      "index.html" = some { content := "NEW-INDEX", sha := "commit-a" } ∧
    getContents repo0 "index.html" = some { content := "<p>old</p>", sha := "blob-1" } ∧
    process_revise_request partialReviseEnv =
      Except.ok [Ev.lookupRepo true, Ev.generation true, Ev.updateFile "index.html",
        Ev.updateExn] ∧
    hasNotify [Ev.lookupRepo true, Ev.generation true, Ev.updateFile "index.html",
      Ev.updateExn] = false :=
  ⟨rfl, rfl, rfl, rfl, rfl⟩

/-- C10: `get_existing_repo_details` does not return its failure value
(None) on every failure: when the exception is raised before the local
`repo_name` is bound (during client authentication or user lookup), the
except handler's f-string reads the unbound local and itself raises, so
the function propagates an exception; when the exception is raised after
`repo_name` is bound (missing repository or missing file), the handler
runs and the function returns None as intended. -/
theorem C10_handler_raises_before_binding (task_id : String) :
    get_existing_repo_details task_id LookupOutcome.earlyRaise = Except.error () ∧
    get_existing_repo_details task_id LookupOutcome.repoMissing = Except.ok none ∧
    get_existing_repo_details task_id LookupOutcome.fileMissing = Except.ok none :=
  ⟨rfl, rfl, rfl⟩
